import Mathlib

/-!
Verification development for the Price Pilot link-verification service.

The Python source (`link_verify.py`, `link_verify_api.py`) is embedded
shallowly: pure helpers become Lean functions on `String`/`List Char`,
prices become exact rationals (`ℚ`, built through `mkRat`), fallible
values become `Option`, and the external collaborators (the HTTP
library, the HTML parser, the LLM oracle) are inputs each run of the
pipeline is parameterised over.  Machine floats of the source are
modelled by exact rationals; the two-decimal float formatting is
modelled as rounding half-up at two places.
-/

namespace PricePilot

/-- Python-style whitespace test used by `str.strip()` (ASCII fragment). -/
def isPySpace (c : Char) : Bool :=
  c = ' ' || c = '\t' || c = '\n' || c = '\r' || c = '\x0b' || c = '\x0c'

/-- `str.strip()` on a character list: drop whitespace at both ends. -/
def pyStrip (l : List Char) : List Char :=
  ((l.dropWhile isPySpace).reverse.dropWhile isPySpace).reverse

/-- `str.lower()` (ASCII fragment, enough for the sentinel words). -/
def pyLower (l : List Char) : List Char :=
  l.map Char.toLower

/-- `str.upper()` (ASCII fragment, enough for `NOT_FOUND`). -/
def pyUpper (l : List Char) : List Char :=
  l.map Char.toUpper

/-- Contiguous-substring test (`needle in haystack` of Python). -/
def isSubstr (p : List Char) : List Char → Bool
  | [] => p.isEmpty
  | c :: t => p.isPrefixOf (c :: t) || isSubstr p t

/-- Truthiness of a Python `Optional[str]`: `None` and `""` are falsy. -/
def pyFalsy (o : Option String) : Bool :=
  match o with
  | none => true
  | some s => s.toList.isEmpty

/-- Python `a or default` for `a : Optional[str]`: the default replaces
both `None` and the empty string. -/
def pyOrElse (o : Option String) (d : String) : String :=
  match o with
  | none => d
  | some s => if s.toList.isEmpty then d else s

/-- `dict.get(key, default)` for a dict built by inserting the listed
pairs in order (a later binding for a key overwrites an earlier one). -/
def pyGet (kvs : List (String × String)) (k d : String) : String :=
  match (kvs.filter fun p => p.1 == k).getLast? with
  | some p => p.2
  | none => d

/- ===================================================================
   Price Parser — `parse_price` of `link_verify_api.py`
   =================================================================== -/

/-- The "no price" sentinel strings of `parse_price`
(`['not listed', 'n/a', 'na', 'not available', 'not specified']`). -/
def priceSentinels : List (List Char) :=
  ["not listed", "n/a", "na", "not available", "not specified"].map String.toList

/-- The cleaning step of `parse_price`:
`price_str.strip().replace('£','').replace('$','').replace('€','').replace(',','')`.
Each `replace` deletes every occurrence of one character, so the
composite is a filter over the stripped character list. -/
def cleanPrice (l : List Char) : List Char :=
  (pyStrip l).filter fun c => !(c = '£' || c = '$' || c = '€' || c = ',')

/-- Value of a digit run read left to right. -/
def natFromDigits (l : List Char) : Nat :=
  l.foldl (fun n c => 10 * n + (c.toNat - '0'.toNat)) 0

/-- First match of the regex `\d+\.?\d*`, converted to a number
(`float(match.group())` of the source, as an exact rational): the first
maximal digit run, then an optional dot followed by a further digit run. -/
def extractNum (l : List Char) : Option ℚ :=
  let rest := l.dropWhile fun c => !c.isDigit
  match rest with
  | [] => none
  | _ :: _ =>
    let d1 := rest.takeWhile Char.isDigit
    let r2 := rest.drop d1.length
    let d2 := match r2 with
      | '.' :: t => t.takeWhile Char.isDigit
      | _ => []
    some (mkRat (natFromDigits d1 * 10 ^ d2.length + natFromDigits d2) (10 ^ d2.length))

/-- `parse_price`.  The argument is `Option String` so that a Python
`None` input (`not isinstance(price_str, str)`) is a value; `none` and
the empty string are rejected up front, then currency symbols, commas
and outer whitespace are removed, the sentinel words map to `none`, and
otherwise the first `\d+\.?\d*` token is read as a number. -/
def parse_price (ps : Option String) : Option ℚ :=
  match ps with
  | none => none
  | some s =>
    if s.toList = [] then none
    else
      let cleaned := cleanPrice s.toList
      if priceSentinels.contains (pyLower cleaned) then none
      else extractNum cleaned

/- ===================================================================
   Price Comparator — `compare_prices` of `link_verify_api.py`
   =================================================================== -/

/-- Exact difference of two rationals computed on numerators and
denominators (kept in `mkRat` form so concrete runs evaluate). -/
def ratSub (a b : ℚ) : ℚ :=
  mkRat (a.num * b.den - b.num * a.den) (a.den * b.den)

theorem ratSub_eq (a b : ℚ) : ratSub a b = a - b := by
  have ha : (a.den : ℚ) ≠ 0 := Nat.cast_ne_zero.mpr a.den_nz
  have hb : (b.den : ℚ) ≠ 0 := Nat.cast_ne_zero.mpr b.den_nz
  rw [ratSub, Rat.mkRat_eq_div]
  push_cast
  conv_rhs => rw [← Rat.num_div_den a, ← Rat.num_div_den b]
  field_simp
  ring

/-- The `f"{savings:.2f}"` float format of the source, on a non-negative
rational: round half-up to hundredths and print with exactly two
fractional digits. -/
def fmt2 (q : ℚ) : String :=
  let n := (200 * q.num.toNat + q.den) / (2 * q.den)
  let ip := n / 100
  let fr := n % 100
  toString ip ++ "." ++ (if fr < 10 then "0" ++ toString fr else toString fr)

/-- Result record of `compare_prices`:
`{'priceComparison': ..., 'savings': ...}`. -/
structure PriceComparison where
  priceComparison : String
  savings : Option String
deriving DecidableEq, Repr

/-- `parse_price(amazon_price_str) if amazon_price_str else None` of the
source (the guard also skips the empty string, which is falsy). -/
def amazon_parse (a : Option String) : Option ℚ :=
  match a with
  | none => none
  | some s => if s.toList = [] then none else parse_price (some s)

/-- `compare_prices` of `link_verify_api.py`. -/
def compare_prices (scraped : String) (amazon : Option String) : PriceComparison :=
  match parse_price (some scraped), amazon_parse amazon with
  | some s, some a =>
    if s < a then { priceComparison := "lower", savings := some ("£" ++ fmt2 (ratSub a s)) }
    else if a < s then { priceComparison := "higher", savings := none }
    else { priceComparison := "same", savings := none }
  | _, _ => { priceComparison := "unable_to_compare", savings := none }

/- ===================================================================
   Fetcher — `fetch_html` of `link_verify.py`
   =================================================================== -/

/-- What one attempt of the HTTP library yields: a response with a
status code and body (`errText` is the text of the `HTTPError` that
`raise_for_status` would raise for a 4xx/5xx status), or one of the
request exceptions the source catches.  The library is external, so one
such outcome per attempt number is an input of the model. -/
inductive Attempt where
  | response (code : Nat) (body : String) (errText : String)
  | proxyError (msg : String)
  | sslError (msg : String)
  | missingSchema
  | connectionError (msg : String)
  | timeout
  | requestException (msg : String)
deriving DecidableEq, Repr

/-- How the loop body of `fetch_html` reacts to one attempt outcome:
succeed with the body, fail immediately, or record an error and retry
after an exponential (`2 ** attempt`) or fixed one-second sleep. -/
inductive StepAction where
  | success (body : String)
  | hardFail (msg : String)
  | retryExp (msg : String)
  | retryFixed (msg : String)
deriving DecidableEq, Repr

/-- The classification table of `fetch_html`'s loop body: the three
blocking statuses 403/429/503, `raise_for_status` for other 4xx/5xx,
and one arm per caught exception class, each with the source's message
and backoff flavour. -/
def classify (timeout : Nat) : Attempt → StepAction
  | .response code body errText =>
    if code = 403 then .retryExp "HTTP 403 Forbidden - Site may be blocking requests"
    else if code = 429 then .retryExp "HTTP 429 Too Many Requests - Rate limited"
    else if code = 503 then .retryExp "HTTP 503 Service Unavailable - Site may be down"
    else if 400 ≤ code ∧ code < 600 then .retryExp ("HTTP error: " ++ errText)
    else .success body
  | .proxyError m => .retryExp ("Proxy connection failed: " ++ m)
  | .sslError m => .retryFixed ("SSL/TLS error: " ++ m)
  | .missingSchema => .hardFail "Invalid URL format - missing http:// or https://"
  | .connectionError m => .retryExp ("Connection failed: " ++ m)
  | .timeout => .retryFixed ("Request timed out after " ++ toString timeout ++ "s")
  | .requestException m => .retryExp ("Request failed: " ++ m)

/-- Terminal result of `fetch_html`, instrumented with the number of
attempts performed and the list of sleep durations (seconds), in order. -/
structure FetchOutcome where
  html : Option String
  errorMessage : Option String
  attempts : Nat
  sleeps : List Nat
deriving DecidableEq, Repr

/-- The `for attempt in range(1, max_retries + 1)` loop of `fetch_html`.
`fuel` is the number of loop iterations left (`maxRetries - attempt + 1`
at entry); `lastErr` is the running `last_error`.  A retryable outcome
sleeps and continues while attempts remain and otherwise terminates with
the recorded message (for the blocking statuses the source returns
there; for exceptions it falls out of the loop — same result). -/
def fetchLoop (out : Nat → Attempt) (timeout maxRetries : Nat) :
    Nat → Nat → Option String → List Nat → FetchOutcome
  | 0, attempt, lastErr, sleeps => ⟨none, lastErr, attempt - 1, sleeps⟩
  | fuel + 1, attempt, _lastErr, sleeps =>
    match classify timeout (out attempt) with
    | .success body => ⟨some body, none, attempt, sleeps⟩
    | .hardFail m => ⟨none, some m, attempt, sleeps⟩
    | .retryExp m =>
      if attempt < maxRetries then
        fetchLoop out timeout maxRetries fuel (attempt + 1) (some m) (sleeps ++ [2 ^ attempt])
      else ⟨none, some m, attempt, sleeps⟩
    | .retryFixed m =>
      if attempt < maxRetries then
        fetchLoop out timeout maxRetries fuel (attempt + 1) (some m) (sleeps ++ [1])
      else ⟨none, some m, attempt, sleeps⟩

/-- `fetch_html(url, timeout, max_retries)`: run the attempt loop from
attempt 1 with no recorded error.  The per-attempt outcomes of the HTTP
library are the input `out`. -/
def fetch_html (out : Nat → Attempt) (timeout maxRetries : Nat) : FetchOutcome :=
  fetchLoop out timeout maxRetries maxRetries 1 none []

/-- The classified message `fetch_html` records for a blocking status
code (403, 429 or 503). -/
def blockMsg (code : Nat) : String :=
  if code = 403 then "HTTP 403 Forbidden - Site may be blocking requests"
  else if code = 429 then "HTTP 429 Too Many Requests - Rate limited"
  else "HTTP 503 Service Unavailable - Site may be down"

/-- Exactly one of `html` and `errorMessage` is present. -/
def htmlXorError (r : FetchOutcome) : Prop :=
  (r.html ≠ none ∧ r.errorMessage = none) ∨ (r.html = none ∧ r.errorMessage ≠ none)

instance (r : FetchOutcome) : Decidable (htmlXorError r) := by
  unfold htmlXorError
  infer_instance

/- ===================================================================
   Text Extractor — `extract_text` of `link_verify.py`
   =================================================================== -/

/-- `str.splitlines()` worker: cut at `\r\n`, `\n` or `\r`; a terminator
at the very end does not open a new line. -/
def splitLinesAux : List Char → List Char → List (List Char)
  | [], acc => [acc.reverse]
  | '\r' :: '\n' :: [], acc => [acc.reverse]
  | '\r' :: '\n' :: c :: t, acc => acc.reverse :: splitLinesAux (c :: t) []
  | '\n' :: [], acc => [acc.reverse]
  | '\n' :: c :: t, acc => acc.reverse :: splitLinesAux (c :: t) []
  | '\r' :: [], acc => [acc.reverse]
  | '\r' :: c :: t, acc => acc.reverse :: splitLinesAux (c :: t) []
  | c :: t, acc => splitLinesAux t (c :: acc)

/-- `str.splitlines()` (on the empty string it yields no lines). -/
def splitLines (l : List Char) : List (List Char) :=
  match l with
  | [] => []
  | _ => splitLinesAux l []

/-- `line.split("  ")`: cut at each non-overlapping double space, left
to right, keeping empty pieces. -/
def splitTwoSpaces : List Char → List Char → List (List Char)
  | [], acc => [acc.reverse]
  | ' ' :: ' ' :: t, acc => acc.reverse :: splitTwoSpaces t []
  | c :: t, acc => splitTwoSpaces t (c :: acc)

/-- The whitespace-normalisation pipeline of `extract_text` applied to
the text that the HTML parser yields: per line strip, split on double
spaces, strip each piece, drop empty pieces, rejoin with newlines. -/
def cleanText (raw : List Char) : List Char :=
  let lines := (splitLines raw).map pyStrip
  let chunks := (lines.map fun l => splitTwoSpaces l []).flatten.map pyStrip
  List.intercalate ['\n'] (chunks.filter fun c => !c.isEmpty)

/-- `extract_text(html_content)`.  Parsing with BeautifulSoup (including
the removal of `script`/`style` subtrees and `get_text()`) is external:
`parseHtml` returns the raw text it would produce, or the text of the
exception it would raise. -/
def extract_text (parseHtml : String → Except String String)
    (html : Option String) : Option String × Option String :=
  match html with
  | none => (none, some "No HTML content provided")
  | some h =>
    if h.toList = [] then (none, some "No HTML content provided")
    else
      match parseHtml h with
      | .error e => (none, some ("Failed to parse HTML: " ++ e))
      | .ok raw =>
        let text := String.mk (cleanText raw.toList)
        if text.toList.length < 100 then
          (some text, some "Page content appears to be empty or very short")
        else (some text, none)

/- ===================================================================
   Product Matcher — `find_product_info` of `link_verify.py`
   =================================================================== -/

/-- One line of the oracle response: at the first colon, split into a
stripped key and a stripped value; a line with no colon is skipped. -/
def kvOfLine (line : List Char) : Option (String × String) :=
  let pre := line.takeWhile fun c => c != ':'
  if pre.length = line.length then none
  else some (String.mk (pyStrip pre), String.mk (pyStrip (line.drop (pre.length + 1))))

/-- `content.split('\n')` with the per-line key:value parse; insertion
order is kept and a later binding for a key overwrites (see `pyGet`). -/
def parseKVLines (c : List Char) : List (String × String) :=
  ((c.splitOn '\n').map kvOfLine).reduceOption

/-- The response handling of `find_product_info` from the point where
the LLM call has returned a message content (the HTTP call itself and
its failure branches are external and surface as stage errors at the
orchestrator): strip the content, reject the empty response, map any
response containing `NOT_FOUND` (case-insensitively) to the absent
product, and otherwise parse key:value lines defensively. -/
def find_product_info (content : String) : Option (List (String × String)) × Option String :=
  let c := pyStrip content.toList
  if c.isEmpty then (none, some "LLM returned empty response")
  else if isSubstr "NOT_FOUND".toList (pyUpper c) then
    (none, some "Product not found on page")
  else
    let entries := parseKVLines c
    if entries.isEmpty then (none, some "Failed to parse product info from LLM response")
    else (some entries, none)

/- ===================================================================
   Verification Orchestrator — `verify_single_link` of `link_verify_api.py`
   =================================================================== -/

/-- A Python call that either returns a value or raises an exception
whose `str(e)` is the carried message. -/
inductive PyResult (α : Type) where
  | ok (val : α)
  | exn (msg : String)
deriving DecidableEq, Repr

/-- The response dictionary of `verify_single_link`; a key the source
does not put into the dictionary is `none`. -/
structure VerifyResult where
  valid : Bool
  url : Option String := none
  productTitle : Option String := none
  price : Option String := none
  brand : Option String := none
  description : Option String := none
  availability : Option String := none
  confidence : Option String := none
  verifiedAt : Option String := none
  error : Option String := none
  errorType : Option String := none
  message : Option String := none
  amazonPrice : Option String := none
  priceComparison : Option String := none
  savings : Option String := none
deriving DecidableEq, Repr

/-- The `try` block of `verify_single_link`: sequence fetch, extract and
oracle, short-circuiting on the first falsy stage output; a stage that
raises makes the whole body raise.  The three stage outcomes and the
timestamp are inputs: each stage performs I/O in the source.  `now` is
`datetime.utcnow().isoformat()`. -/
def verify_body (url productTitle : String) (amazonPrice : Option String)
    (fetchRes : PyResult (Option String × Option String))
    (extractRes : PyResult (Option String × Option String))
    (oracleRes : PyResult (Option (List (String × String)) × Option String))
    (now : String) : PyResult VerifyResult :=
  match fetchRes with
  | .exn e => .exn e
  | .ok (htmlContent, fetchErr) =>
    if pyFalsy htmlContent then
      .ok { valid := false,
            error := some (pyOrElse fetchErr "Failed to fetch URL"),
            errorType := some "fetch_error",
            url := some url,
            productTitle := some productTitle }
    else
      match extractRes with
      | .exn e => .exn e
      | .ok (textContent, extractErr) =>
        if pyFalsy textContent then
          .ok { valid := false,
                error := some (pyOrElse extractErr "Failed to extract content from page"),
                errorType := some "extract_error",
                url := some url,
                productTitle := some productTitle }
        else
          match oracleRes with
          | .exn e => .exn e
          | .ok (productInfo, llmErr) =>
            if productInfo = none || productInfo = some [] then
              .ok { valid := false,
                    productTitle := some productTitle,
                    url := some url,
                    message := some (pyOrElse llmErr "Product not found on this page"),
                    errorType := some "product_not_found" }
            else
              let prod := productInfo.getD []
              let scrapedPrice := pyGet prod "price" "Not listed"
              let cmp := compare_prices scrapedPrice amazonPrice
              let isValid :=
                if !pyFalsy amazonPrice && cmp.priceComparison != "unable_to_compare" then
                  cmp.priceComparison == "lower"
                else true
              .ok { valid := isValid,
                    url := some url,
                    productTitle := some (pyGet prod "title" productTitle),
                    price := some scrapedPrice,
                    brand := some (pyGet prod "brand" "N/A"),
                    description := some (pyGet prod "description" ""),
                    availability := some (pyGet prod "availability" "Not specified"),
                    confidence := some (if String.mk (pyLower (pyGet prod "price" "").toList) != "not listed"
                      then "high" else "medium"),
                    verifiedAt := some (now ++ "Z"),
                    amazonPrice := amazonPrice,
                    priceComparison := some cmp.priceComparison,
                    savings := cmp.savings }

/-- `verify_single_link`: the `try` body with its catch-all `except`,
which maps any raised exception `e` to the internal-error dictionary. -/
def verify_single_link (url productTitle : String) (amazonPrice : Option String)
    (fetchRes : PyResult (Option String × Option String))
    (extractRes : PyResult (Option String × Option String))
    (oracleRes : PyResult (Option (List (String × String)) × Option String))
    (now : String) : VerifyResult :=
  match verify_body url productTitle amazonPrice fetchRes extractRes oracleRes now with
  | .ok r => r
  | .exn e =>
    { valid := false,
      error := some ("Internal error: " ++ e),
      errorType := some "internal_error",
      url := some url }

/- ===================================================================
   Helper lemmas
   =================================================================== -/

theorem toList_eq_nil_iff (s : String) : s.toList = [] ↔ s = "" := by
  cases s with
  | mk d =>
    constructor
    · intro h
      have hd : d = [] := h
      rw [hd]
    · intro h
      rw [h]
      rfl

theorem pyFalsy_some_false {s : String} (hs : s ≠ "") : pyFalsy (some s) = false := by
  simp only [pyFalsy]
  cases hl : s.toList.isEmpty
  · rfl
  · exact absurd ((toList_eq_nil_iff s).mp (List.isEmpty_iff.mp hl)) hs

theorem isSubstr_eq_true_iff (p : List Char) : ∀ l, isSubstr p l = true ↔ p <:+: l := by
  intro l
  induction l with
  | nil => simp [isSubstr, List.isEmpty_iff, List.infix_nil]
  | cons c t ih =>
    simp only [isSubstr, Bool.or_eq_true, List.isPrefixOf_iff_prefix, ih, List.infix_cons_iff]

theorem infix_dropWhile_of_not (q : Char → Bool) (m : List Char) (hm : m ≠ [])
    (hfree : ∀ c ∈ m, q c = false) :
    ∀ l, m <:+: l → m <:+: l.dropWhile q := by
  intro l hl
  obtain ⟨s, t, rfl⟩ := hl
  induction s with
  | nil =>
    cases m with
    | nil => exact absurd rfl hm
    | cons c m' =>
      have hq := hfree c (List.mem_cons_self c m')
      refine ⟨[], t, ?_⟩
      simp [List.dropWhile_cons, hq]
  | cons a s' ih =>
    by_cases hqa : q a = true
    · have hd : List.dropWhile q ((a :: s') ++ m ++ t) = List.dropWhile q (s' ++ m ++ t) := by
        simp [List.cons_append, List.dropWhile_cons, hqa]
      rw [hd]
      exact ih
    · have hd : List.dropWhile q ((a :: s') ++ m ++ t) = (a :: s') ++ m ++ t := by
        simp [List.cons_append, List.dropWhile_cons, hqa]
      rw [hd]
      exact ⟨a :: s', t, rfl⟩

theorem infix_pyStrip (m : List Char) (hm : m ≠ [])
    (hfree : ∀ c ∈ m, isPySpace c = false) {l : List Char} (hl : m <:+: l) :
    m <:+: pyStrip l := by
  have h1 : m <:+: l.dropWhile isPySpace := infix_dropWhile_of_not _ m hm hfree l hl
  have h2 : m.reverse <:+: (l.dropWhile isPySpace).reverse := List.reverse_infix.mpr h1
  have hm' : m.reverse ≠ [] := by simpa using hm
  have hfree' : ∀ c ∈ m.reverse, isPySpace c = false :=
    fun c hc => hfree c (List.mem_reverse.mp hc)
  have h3 := infix_dropWhile_of_not isPySpace m.reverse hm' hfree' _ h2
  have h4 := List.reverse_infix.mpr h3
  simpa [pyStrip] using h4

theorem amazon_parse_of_parse {a : String} {R : ℚ} (h : parse_price (some a) = some R) :
    amazon_parse (some a) = some R := by
  by_cases he : a.data = []
  · have hnone : parse_price (some a) = none := by simp [parse_price, he]
    rw [hnone] at h
    exact Option.noConfusion h
  · simpa [amazon_parse, he] using h

theorem compare_parses_of_ne_unable {s : String} {a : Option String}
    (h : (compare_prices s a).priceComparison ≠ "unable_to_compare") :
    ∃ S R, parse_price (some s) = some S ∧ amazon_parse a = some R := by
  unfold compare_prices at h
  cases hs : parse_price (some s) with
  | none => rw [hs] at h; exact absurd rfl h
  | some S =>
    cases ha : amazon_parse a with
    | none => rw [hs, ha] at h; exact absurd rfl h
    | some R => exact ⟨S, R, rfl, rfl⟩

theorem classify_block (t code : Nat) (b et : String)
    (h : code = 403 ∨ code = 429 ∨ code = 503) :
    classify t (Attempt.response code b et) = StepAction.retryExp (blockMsg code) := by
  rcases h with rfl | rfl | rfl <;> rfl

/-- Once `last_error` is set, every terminal return of the attempt loop
has exactly one of `html`/`errorMessage` present. -/
theorem fetchLoop_xor_of_some (out : Nat → Attempt) (t maxR : Nat) :
    ∀ fuel attempt e sleeps, htmlXorError (fetchLoop out t maxR fuel attempt (some e) sleeps) := by
  intro fuel
  induction fuel with
  | zero =>
    intro attempt e sleeps
    exact Or.inr ⟨rfl, by simp [fetchLoop]⟩
  | succ f ih =>
    intro attempt e sleeps
    show htmlXorError (fetchLoop out t maxR (f + 1) attempt (some e) sleeps)
    rw [fetchLoop]
    cases classify t (out attempt) with
    | success b => exact Or.inl ⟨by simp, rfl⟩
    | hardFail m => exact Or.inr ⟨rfl, by simp⟩
    | retryExp m =>
      dsimp only
      by_cases hlt : attempt < maxR
      · rw [if_pos hlt]
        exact ih (attempt + 1) m (sleeps ++ [2 ^ attempt])
      · rw [if_neg hlt]
        exact Or.inr ⟨rfl, by simp⟩
    | retryFixed m =>
      dsimp only
      by_cases hlt : attempt < maxR
      · rw [if_pos hlt]
        exact ih (attempt + 1) m (sleeps ++ [1])
      · rw [if_neg hlt]
        exact Or.inr ⟨rfl, by simp⟩

/-- When every attempt classifies as an exponential-backoff retry, the
loop uses all its attempts, sleeps `2 ^ attempt` between consecutive
ones, and ends with the last attempt's message. -/
theorem fetchLoop_all_retryExp (out : Nat → Attempt) (t maxR : Nat) (m : Nat → String)
    (hcl : ∀ i, classify t (out i) = StepAction.retryExp (m i)) :
    ∀ fuel attempt lastErr sleeps, 1 ≤ fuel → attempt + fuel = maxR + 1 →
      fetchLoop out t maxR fuel attempt lastErr sleeps =
        ⟨none, some (m maxR), maxR,
          sleeps ++ (List.range (fuel - 1)).map (fun i => 2 ^ (attempt + i))⟩ := by
  intro fuel
  induction fuel with
  | zero =>
    intro attempt lastErr sleeps h1 _
    exact absurd h1 (by omega)
  | succ f ih =>
    intro attempt lastErr sleeps _ h2
    rw [fetchLoop, hcl attempt]
    dsimp only
    cases f with
    | zero =>
      have hnlt : ¬ attempt < maxR := by omega
      have ha : attempt = maxR := by omega
      rw [if_neg hnlt, ha]
      simp
    | succ g =>
      have hlt : attempt < maxR := by omega
      rw [if_pos hlt, ih (attempt + 1) (some (m attempt)) (sleeps ++ [2 ^ attempt]) (by omega) (by omega)]
      have hsl : (sleeps ++ [2 ^ attempt]) ++
            (List.range (g + 1 - 1)).map (fun i => 2 ^ (attempt + 1 + i)) =
          sleeps ++ (List.range (g + 1 + 1 - 1)).map (fun i => 2 ^ (attempt + i)) := by
        rw [List.append_assoc]
        congr 1
        have hr : g + 1 + 1 - 1 = g + 1 := by omega
        have hg : g + 1 - 1 = g := by omega
        rw [hr, hg, List.range_succ_eq_map, List.map_cons, List.map_map]
        simp only [List.singleton_append, Nat.add_zero, List.cons.injEq]
        refine ⟨trivial, List.map_congr_left fun i _ => ?_⟩
        simp only [Function.comp_apply]
        congr 1
        omega
      rw [hsl]

theorem parse_price_sentinel {s : String}
    (hs : priceSentinels.contains (pyLower (cleanPrice s.toList)) = true) :
    parse_price (some s) = none := by
  have hs' : priceSentinels.contains (pyLower (cleanPrice s.data)) = true := hs
  by_cases he : s.data = []
  · simp [parse_price, he]
  · have hmem : pyLower (cleanPrice s.data) ∈ priceSentinels := by
      simpa using hs'
    simp [parse_price, he, hmem]

/- ===================================================================
   Claim theorems
   =================================================================== -/

/-- Claim C3: `parse_price` maps `£10.99`, `$10.99`, `€10.99`, `10.99`
and `£1,299.99` to 10.99, 10.99, 10.99, 10.99 and 1299.99, maps
`"Not listed"`, `"N/A"`, `""`, `None`, `"free"` and `"abc"` to absent,
and any input whose cleaned form is case-insensitively one of the
sentinel words yields absent. -/
theorem parse_price_vectors :
    parse_price (some "£10.99") = some (1099 / 100) ∧
    parse_price (some "$10.99") = some (1099 / 100) ∧
    parse_price (some "€10.99") = some (1099 / 100) ∧
    parse_price (some "10.99") = some (1099 / 100) ∧
    parse_price (some "£1,299.99") = some (129999 / 100) ∧
    parse_price (some "Not listed") = none ∧
    parse_price (some "N/A") = none ∧
    parse_price (some "") = none ∧
    parse_price none = none ∧
    parse_price (some "free") = none ∧
    parse_price (some "abc") = none ∧
    ∀ s : String, priceSentinels.contains (pyLower (cleanPrice s.toList)) = true →
      parse_price (some s) = none := by
  refine ⟨?_, ?_, ?_, ?_, ?_, by decide, by decide, by decide, by decide, by decide, by decide,
    fun s hs => parse_price_sentinel hs⟩
  · have h : parse_price (some "£10.99") = some (mkRat 1099 100) := by decide
    rw [h, Option.some_inj]
    norm_num
  · have h : parse_price (some "$10.99") = some (mkRat 1099 100) := by decide
    rw [h, Option.some_inj]
    norm_num
  · have h : parse_price (some "€10.99") = some (mkRat 1099 100) := by decide
    rw [h, Option.some_inj]
    norm_num
  · have h : parse_price (some "10.99") = some (mkRat 1099 100) := by decide
    rw [h, Option.some_inj]
    norm_num
  · have h : parse_price (some "£1,299.99") = some (mkRat 129999 100) := by decide
    rw [h, Option.some_inj]
    norm_num

/-- Witness for C3: the sentinel clause applied at the concrete input
`"Not Available"`. -/
theorem parse_price_vectors_check : parse_price (some "Not Available") = none :=
  parse_price_vectors.2.2.2.2.2.2.2.2.2.2.2 "Not Available" (by decide)

/-- Claim C4: if either price string parses to absent (or the reference
is absent), `compare_prices` yields `unable_to_compare` with absent
savings. -/
theorem compare_prices_unable (s : String) (a : Option String)
    (h : parse_price (some s) = none ∨ amazon_parse a = none) :
    compare_prices s a = { priceComparison := "unable_to_compare", savings := none } := by
  unfold compare_prices
  rcases h with h | h
  · rw [h]
  · rw [h]
    cases parse_price (some s) <;> rfl

/-- Witness for C4 at `("Not listed", "£15.99")`. -/
theorem compare_prices_unable_check :
    compare_prices "Not listed" (some "£15.99") =
      { priceComparison := "unable_to_compare", savings := none } :=
  compare_prices_unable "Not listed" (some "£15.99") (Or.inl (by decide))

/-- Claim C2: when both prices parse (to S and R), the verdict is
`lower` iff S < R, `higher` when S > R, `same` when S = R, savings is
present iff the verdict is `lower`, and then savings is R - S in the
two-decimal currency format. -/
theorem compare_prices_ordering (s a : String) (S R : ℚ)
    (hs : parse_price (some s) = some S) (ha : parse_price (some a) = some R) :
    ((compare_prices s (some a)).priceComparison = "lower" ↔ S < R) ∧
    (R < S → (compare_prices s (some a)).priceComparison = "higher") ∧
    (S = R → (compare_prices s (some a)).priceComparison = "same") ∧
    ((compare_prices s (some a)).savings.isSome = true ↔
      (compare_prices s (some a)).priceComparison = "lower") ∧
    (S < R → (compare_prices s (some a)).savings = some ("£" ++ fmt2 (R - S))) := by
  have ha' := amazon_parse_of_parse ha
  have hc : compare_prices s (some a) =
      if S < R then { priceComparison := "lower", savings := some ("£" ++ fmt2 (ratSub R S)) }
      else if R < S then { priceComparison := "higher", savings := none }
      else { priceComparison := "same", savings := none } := by
    unfold compare_prices
    rw [hs, ha']
  rw [hc, ratSub_eq]
  rcases lt_trichotomy S R with h1 | h1 | h1
  · rw [if_pos h1]
    exact ⟨iff_of_true rfl h1, fun h2 => absurd h2 (lt_asymm h1),
      fun h2 => absurd h2 (ne_of_lt h1), by simp, fun _ => rfl⟩
  · have hnl : ¬ S < R := by rw [h1]; exact lt_irrefl R
    have hng : ¬ R < S := by rw [h1]; exact lt_irrefl R
    rw [if_neg hnl, if_neg hng]
    exact ⟨iff_of_false (by decide) hnl, fun h2 => absurd h2 hng, fun _ => rfl,
      iff_of_false (by simp) (by decide), fun h2 => absurd h2 hnl⟩
  · have hnl : ¬ S < R := lt_asymm h1
    rw [if_neg hnl, if_pos h1]
    exact ⟨iff_of_false (by decide) hnl, fun _ => rfl,
      fun h2 => absurd (h2 ▸ h1) (lt_irrefl R),
      iff_of_false (by simp) (by decide), fun h2 => absurd h2 hnl⟩

/-- Witness for C2 at `("£10.99", "£15.99")`: verdict lower, savings
present in the stated format. -/
theorem compare_prices_ordering_check :
    (compare_prices "£10.99" (some "£15.99")).priceComparison = "lower" ∧
    (compare_prices "£10.99" (some "£15.99")).savings =
      some ("£" ++ fmt2 (mkRat 1599 100 - mkRat 1099 100)) := by
  have h := compare_prices_ordering "£10.99" "£15.99" (mkRat 1099 100) (mkRat 1599 100)
    (by decide) (by decide)
  exact ⟨h.1.mpr (by decide), h.2.2.2.2 (by decide)⟩

/-- Claim C10: a response content containing `NOT_FOUND` in any letter
case, anywhere, makes `find_product_info` return the absent product with
message "Product not found on page"; key:value parsing only happens on
contents free of that substring. -/
theorem find_product_notfound (content : String) :
    ((∃ s m t, content.toList = s ++ m ++ t ∧ pyUpper m = "NOT_FOUND".toList) →
      find_product_info content = (none, some "Product not found on page")) ∧
    (∀ kvs, (find_product_info content).1 = some kvs →
      ¬ ∃ s m t, content.toList = s ++ m ++ t ∧ pyUpper m = "NOT_FOUND".toList) := by
  have main : (∃ s m t, content.toList = s ++ m ++ t ∧ pyUpper m = "NOT_FOUND".toList) →
      find_product_info content = (none, some "Product not found on page") := by
    rintro ⟨s, m, t, hdec, hup⟩
    have hm : m ≠ [] := by
      intro h
      rw [h] at hup
      exact absurd hup (by decide)
    have hfree : ∀ c ∈ m, isPySpace c = false := by
      intro c hc
      have hmem : c.toUpper ∈ "NOT_FOUND".toList := by
        rw [← hup]
        exact List.mem_map_of_mem Char.toUpper hc
      by_contra hws
      have hws' : isPySpace c = true := by
        cases hx : isPySpace c
        · exact absurd hx hws
        · rfl
      have hcase : c = ' ' ∨ c = '\t' ∨ c = '\n' ∨ c = '\r' ∨ c = '\x0b' ∨ c = '\x0c' := by
        simpa [isPySpace, or_assoc] using hws'
      rcases hcase with rfl | rfl | rfl | rfl | rfl | rfl <;> exact absurd hmem (by decide)
    have hinf : m <:+: content.toList := ⟨s, t, hdec.symm⟩
    have hstrip := infix_pyStrip m hm hfree hinf
    have hup2 : "NOT_FOUND".toList <:+: pyUpper (pyStrip content.toList) := by
      rw [← hup]
      exact List.IsInfix.map Char.toUpper hstrip
    have hsub : isSubstr "NOT_FOUND".toList (pyUpper (pyStrip content.toList)) = true :=
      (isSubstr_eq_true_iff _ _).mpr hup2
    have hne : (pyStrip content.toList).isEmpty = false := by
      cases hx : (pyStrip content.toList).isEmpty
      · rfl
      · exfalso
        have h0 : pyStrip content.toList = [] := List.isEmpty_iff.mp hx
        rw [h0] at hstrip
        exact hm (List.infix_nil.mp hstrip)
    have hsub' : isSubstr ['N', 'O', 'T', '_', 'F', 'O', 'U', 'N', 'D']
        (pyUpper (pyStrip content.data)) = true := hsub
    have hne' : (pyStrip content.data).isEmpty = false := hne
    simp [find_product_info, hne, hne', hsub, hsub']
  refine ⟨main, fun kvs hk hex => ?_⟩
  rw [main hex] at hk
  exact Option.noConfusion hk

/-- Witness for C10: a lower-case `not_found` next to a well-formed
key:value line still maps to the absent product. -/
theorem find_product_notfound_check :
    find_product_info "title: Widget\nnote: not_found" =
      (none, some "Product not found on page") :=
  (find_product_notfound "title: Widget\nnote: not_found").1
    ⟨"title: Widget\nnote: ".toList, "not_found".toList, [], by decide, by decide⟩

/-- Claim C5: when every attempt (of at least one) yields an HTTP 403,
429 or 503 response, `fetch_html` performs exactly `maxRetries`
attempts, sleeps `2 ^ attempt` seconds between consecutive attempts
(`attempt = 1, …, maxRetries - 1`), and returns failure carrying the
message classified from the last attempt's status code. -/
theorem fetch_retry_exhaustion (out : Nat → Attempt) (codes : Nat → Nat)
    (bodies errs : Nat → String) (t maxR : Nat) (hmr : 1 ≤ maxR)
    (hout : ∀ i, out i = Attempt.response (codes i) (bodies i) (errs i))
    (hcodes : ∀ i, codes i = 403 ∨ codes i = 429 ∨ codes i = 503) :
    fetch_html out t maxR =
      ⟨none, some (blockMsg (codes maxR)), maxR,
        (List.range (maxR - 1)).map (fun i => 2 ^ (1 + i))⟩ := by
  have hcl : ∀ i, classify t (out i) = StepAction.retryExp (blockMsg (codes i)) := by
    intro i
    rw [hout i]
    exact classify_block t (codes i) _ _ (hcodes i)
  unfold fetch_html
  rw [fetchLoop_all_retryExp out t maxR (fun i => blockMsg (codes i)) hcl maxR 1 none []
    hmr (by omega)]
  simp

/-- Witness for C5: three 403 responses give three attempts, sleeps of
2 and 4 seconds, and the 403 message. -/
theorem fetch_retry_exhaustion_check :
    fetch_html (fun _ => Attempt.response 403 "" "") 15 3 =
      ⟨none, some "HTTP 403 Forbidden - Site may be blocking requests", 3, [2, 4]⟩ := by
  have h := fetch_retry_exhaustion (fun _ => Attempt.response 403 "" "")
    (fun _ => 403) (fun _ => "") (fun _ => "") 15 3 (by omega)
    (fun _ => rfl) (fun _ => Or.inl rfl)
  exact h.trans (by decide)

/-- Claim C9 (amended: for calls making at least one attempt, i.e.
`maxRetries ≥ 1`): on every terminal return of `fetch_html` exactly one
of `html` and `errorMessage` is present. -/
theorem fetch_html_xor (out : Nat → Attempt) (t maxR : Nat) (h : 1 ≤ maxR) :
    htmlXorError (fetch_html out t maxR) := by
  obtain ⟨f, rfl⟩ : ∃ f, maxR = f + 1 := ⟨maxR - 1, by omega⟩
  show htmlXorError (fetchLoop out t (f + 1) (f + 1) 1 none [])
  rw [fetchLoop]
  cases classify t (out 1) with
  | success b => exact Or.inl ⟨by simp, rfl⟩
  | hardFail m => exact Or.inr ⟨rfl, by simp⟩
  | retryExp m =>
    dsimp only
    by_cases hlt : 1 < f + 1
    · rw [if_pos hlt]
      exact fetchLoop_xor_of_some out t (f + 1) f 2 m _
    · rw [if_neg hlt]
      exact Or.inr ⟨rfl, by simp⟩
  | retryFixed m =>
    dsimp only
    by_cases hlt : 1 < f + 1
    · rw [if_pos hlt]
      exact fetchLoop_xor_of_some out t (f + 1) f 2 m _
    · rw [if_neg hlt]
      exact Or.inr ⟨rfl, by simp⟩

/-- Witness for the amended C9: a first-attempt success has `html`
present and `errorMessage` absent. -/
theorem fetch_html_xor_check :
    htmlXorError (fetch_html (fun _ => Attempt.response 200 "ok" "") 15 3) :=
  fetch_html_xor (fun _ => Attempt.response 200 "ok" "") 15 3 (by omega)

/-- Counterexample to C9 as stated: a call with `maxRetries = 0` never
runs the attempt loop and terminates with `html` and `errorMessage`
both absent, so "exactly one present" fails on that terminal return. -/
theorem fetch_html_xor_counterexample :
    ¬ htmlXorError (fetch_html (fun _ => Attempt.response 200 "ok" "") 15 0) := by
  decide

/-- Claim C6: when the fetch stage returns without html, the
orchestrator answers with `valid = false`, error type `fetch_error`,
the fetcher's message (or the default when absent), and no product or
comparison fields populated. -/
theorem verify_fetch_error (url productTitle now : String) (amazonPrice : Option String)
    (htmlContent fe : Option String)
    (extractRes : PyResult (Option String × Option String))
    (oracleRes : PyResult (Option (List (String × String)) × Option String))
    (hh : htmlContent = none ∨ htmlContent = some "") (hfe : fe ≠ some "") :
    verify_single_link url productTitle amazonPrice (.ok (htmlContent, fe))
        extractRes oracleRes now =
      { valid := false,
        error := some (fe.getD "Failed to fetch URL"),
        errorType := some "fetch_error",
        url := some url,
        productTitle := some productTitle } := by
  have hfal : pyFalsy htmlContent = true := by
    rcases hh with rfl | rfl
    · rfl
    · decide
  have hor : pyOrElse fe "Failed to fetch URL" = fe.getD "Failed to fetch URL" := by
    cases fe with
    | none => rfl
    | some s =>
      have hs : s.toList.isEmpty = false := by
        cases hx : s.toList.isEmpty
        · rfl
        · exact absurd (congrArg some ((toList_eq_nil_iff s).mp (List.isEmpty_iff.mp hx))) hfe
      simp only [pyOrElse, hs, Option.getD, Bool.false_eq_true, if_false]
  simp [verify_single_link, verify_body, hfal, hor]

/-- Witness for C6 with a recorded 429 message. -/
theorem verify_fetch_error_check :
    verify_single_link "u" "t" none
        (.ok (none, some "HTTP 429 Too Many Requests - Rate limited"))
        (.ok (none, none)) (.ok (none, none)) "now" =
      { valid := false,
        error := some "HTTP 429 Too Many Requests - Rate limited",
        errorType := some "fetch_error",
        url := some "u",
        productTitle := some "t" } := by
  have h := verify_fetch_error "u" "t" "now" none none
    (some "HTTP 429 Too Many Requests - Rate limited")
    (.ok (none, none)) (.ok (none, none)) (Or.inl rfl) (by decide)
  exact h.trans (by decide)

/-- Claim C7: an exception raised anywhere inside the verification
sequence is caught: the orchestrator still returns a result, with
`valid = false`, error type `internal_error`, and the message
"Internal error: " followed by the exception text. -/
theorem verify_internal_error (url productTitle now : String) (amazonPrice : Option String)
    (fetchRes extractRes : PyResult (Option String × Option String))
    (oracleRes : PyResult (Option (List (String × String)) × Option String))
    (e : String)
    (h : verify_body url productTitle amazonPrice fetchRes extractRes oracleRes now =
      PyResult.exn e) :
    verify_single_link url productTitle amazonPrice fetchRes extractRes oracleRes now =
      { valid := false,
        error := some ("Internal error: " ++ e),
        errorType := some "internal_error",
        url := some url } := by
  unfold verify_single_link
  rw [h]

/-- Witness for C7: a fetch stage that raises `boom`. -/
theorem verify_internal_error_check :
    verify_single_link "u" "t" none (.exn "boom") (.ok (none, none)) (.ok (none, none)) "now" =
      { valid := false,
        error := some ("Internal error: " ++ "boom"),
        errorType := some "internal_error",
        url := some "u" } :=
  verify_internal_error "u" "t" "now" none (.exn "boom") (.ok (none, none))
    (.ok (none, none)) "boom" rfl

/-- Claim C8: `extract_text` fails hard (absent text, error message
present) exactly when the html is absent/empty or parsing throws; when
parsing succeeds, text shorter than 100 characters is returned together
with a non-fatal warning, and longer text is returned with no error
message. -/
theorem extract_text_soft_hard (p : String → Except String String) (h? : Option String) :
    (((extract_text p h?).1 = none ∧ (extract_text p h?).2.isSome = true) ↔
      (h? = none ∨ h? = some "" ∨ ∃ s e, h? = some s ∧ p s = Except.error e)) ∧
    (∀ s raw, h? = some s → s ≠ "" → p s = Except.ok raw →
      ((String.mk (cleanText raw.toList)).toList.length < 100 →
        extract_text p h? = (some (String.mk (cleanText raw.toList)),
          some "Page content appears to be empty or very short")) ∧
      (100 ≤ (String.mk (cleanText raw.toList)).toList.length →
        extract_text p h? = (some (String.mk (cleanText raw.toList)), none))) := by
  cases h? with
  | none =>
    refine ⟨⟨fun _ => Or.inl rfl, fun _ => ⟨rfl, rfl⟩⟩, fun s raw hs => absurd hs (by simp)⟩
  | some h =>
    by_cases he : h = ""
    · subst he
      refine ⟨⟨fun _ => Or.inr (Or.inl rfl), fun _ => ⟨rfl, rfl⟩⟩, ?_⟩
      intro s raw hs hne _
      injection hs with hs'
      exact absurd hs'.symm hne
    · have he' : ¬ h.toList = [] := fun hh => he ((toList_eq_nil_iff h).mp hh)
      have he'' : ¬ h.data = [] := he'
      cases hp : p h with
      | error e =>
        have hx : extract_text p (some h) = (none, some ("Failed to parse HTML: " ++ e)) := by
          simp [extract_text, he', he'', hp]
        refine ⟨?_, ?_⟩
        · rw [hx]
          exact ⟨fun _ => Or.inr (Or.inr ⟨h, e, rfl, hp⟩), fun _ => ⟨rfl, rfl⟩⟩
        · intro s raw hs hraw hok
          injection hs with hs'
          subst hs'
          rw [hp] at hok
          exact Except.noConfusion hok
      | ok raw0 =>
        by_cases hlen : (String.mk (cleanText raw0.toList)).toList.length < 100
        · have hlen' : (cleanText raw0.data).length < 100 := hlen
          have hx : extract_text p (some h) = (some (String.mk (cleanText raw0.toList)),
              some "Page content appears to be empty or very short") := by
            simp [extract_text, he', he'', hp, hlen']
          refine ⟨?_, ?_⟩
          · rw [hx]
            constructor
            · rintro ⟨h1, -⟩
              exact Option.noConfusion h1
            · rintro (h1 | h1 | ⟨s, e, h1, h2⟩)
              · exact Option.noConfusion h1
              · exact absurd (Option.some.inj h1) he
              · rw [← Option.some.inj h1] at h2
                rw [hp] at h2
                exact Except.noConfusion h2
          · intro s raw hs hraw hok
            injection hs with hs'
            subst hs'
            rw [hp] at hok
            injection hok with hr
            subst hr
            exact ⟨fun _ => hx, fun hge => absurd hlen (by omega)⟩
        · have hlen' : ¬ (cleanText raw0.data).length < 100 := hlen
          have hx : extract_text p (some h) =
              (some (String.mk (cleanText raw0.toList)), none) := by
            simp [extract_text, he', he'', hp, hlen']
          refine ⟨?_, ?_⟩
          · rw [hx]
            constructor
            · rintro ⟨h1, -⟩
              exact Option.noConfusion h1
            · rintro (h1 | h1 | ⟨s, e, h1, h2⟩)
              · exact Option.noConfusion h1
              · exact absurd (Option.some.inj h1) he
              · rw [← Option.some.inj h1] at h2
                rw [hp] at h2
                exact Except.noConfusion h2
          · intro s raw hs hraw hok
            injection hs with hs'
            subst hs'
            rw [hp] at hok
            injection hok with hr
            subst hr
            exact ⟨fun hlt => absurd hlt hlen, fun _ => hx⟩

/-- Witness for C8: a parse producing the short text `hi` yields the
text together with the soft warning. -/
theorem extract_text_soft_hard_check :
    extract_text (fun _ => Except.ok "hi") (some "<p>hi</p>") =
      (some "hi", some "Page content appears to be empty or very short") := by
  have h := (extract_text_soft_hard (fun _ => Except.ok "hi") (some "<p>hi</p>")).2
    "<p>hi</p>" "hi" rfl (by decide) rfl
  exact (h.1 (by decide)).trans (by decide)

/-- Claim C1: on a fully successful pipeline run, the result is valid
when the reference price is absent or the comparison is
`unable_to_compare`; otherwise it is valid exactly when the comparison
verdict is `lower`. -/
theorem verify_valid_gate (url productTitle now : String) (amazonPrice : Option String)
    (htmlContent textContent : String) (fe ee oe : Option String)
    (kvs : List (String × String))
    (hh : htmlContent ≠ "") (ht : textContent ≠ "") (hk : kvs ≠ [])
    (r : VerifyResult) (cmp : PriceComparison)
    (hr : r = verify_single_link url productTitle amazonPrice
      (.ok (some htmlContent, fe)) (.ok (some textContent, ee)) (.ok (some kvs, oe)) now)
    (hcmp : cmp = compare_prices (pyGet kvs "price" "Not listed") amazonPrice) :
    ((amazonPrice = none ∨ cmp.priceComparison = "unable_to_compare") → r.valid = true) ∧
    ((∃ a, amazonPrice = some a) ∧ cmp.priceComparison ≠ "unable_to_compare" →
      (r.valid = true ↔ cmp.priceComparison = "lower")) := by
  subst hr hcmp
  have hfh : pyFalsy (some htmlContent) = false := pyFalsy_some_false hh
  have hft : pyFalsy (some textContent) = false := pyFalsy_some_false ht
  constructor
  · rintro (rfl | hu)
    · have hnone : pyFalsy (none : Option String) = true := rfl
      simp [verify_single_link, verify_body, hfh, hft, hk, hnone]
    · simp [verify_single_link, verify_body, hfh, hft, hk, hu]
  · rintro ⟨⟨a, rfl⟩, hne⟩
    obtain ⟨S, R, hS, hR⟩ := compare_parses_of_ne_unable hne
    have ha' : a ≠ "" := by
      intro h0
      have hz : amazon_parse (some "") = none := by decide
      rw [h0, hz] at hR
      exact Option.noConfusion hR
    have hfa : pyFalsy (some a) = false := pyFalsy_some_false ha'
    have hbne : ((compare_prices (pyGet kvs "price" "Not listed")
        (some a)).priceComparison != "unable_to_compare") = true := by
      simp [bne_iff_ne]
      exact hne
    simp [verify_single_link, verify_body, hfh, hft, hk, hfa, hbne]

/-- Witness for C1: a matched product priced below the reference gives
a valid result. -/
theorem verify_valid_gate_check :
    (verify_single_link "u" "t" (some "£15.99") (.ok (some "x", none)) (.ok (some "y", none))
      (.ok (some [("price", "£10.99")], none)) "now").valid = true := by
  have h := verify_valid_gate "u" "t" "now" (some "£15.99") "x" "y" none none none
    [("price", "£10.99")] (by decide) (by decide) (by decide) _ _ rfl rfl
  exact (h.2 ⟨⟨"£15.99", rfl⟩, by decide⟩).mpr (by decide)

end PricePilot
